import Mathlib

/-!
Shallow embedding of the SecureChat backend (src/backend/main.py): the
connection registry (`ConnectionManager`), the presence broadcaster, the
message store operations (`send_message`, `get_messages`, the read-receipt
update of the websocket endpoint), and the group operations (`create_group`,
`get_groups`, `get_group`, `send_group_message`, `get_group_messages`).

The MySQL tables become lists of rows inside a single `ServerState`; MySQL's
auto-increment ids and `NOW()` become counters carried in the state.  A
websocket channel is a numeric handle; `chanAlive` tells which handles can
still accept a `send_json` (the Python code discovers a dead channel through
the raised exception and falls into `ConnectionManager.disconnect`).
Successful deliveries are recorded in the `delivered` log.

`ConnectionManager.send_to_user` recurses into `disconnect`, which recurses
into `broadcast_status`, which calls `send_to_user` on every contact.  The
Python recursion terminates because every `disconnect` removes a registry
entry; here the recursion carries an explicit fuel parameter, consumed one
unit per `send_to_user` call, and the theorems quantify over the fuel (any
fuel at least the number of live sessions reproduces the Python behaviour).
-/

/-- The outbound real-time events pushed over a websocket channel,
mirroring the JSON envelopes built in main.py. -/
inductive Event where
  | user_online (user_id : String)
  | user_offline (user_id : String)
  | new_message (message_id : Nat) (sender_id : String) (encrypted_content : String)
  | group_added (group_id : String) (name : String)
  | group_message (group_id : String) (message_id : Nat)
  | messages_read (reader_id : String)
  | typing_event (sender_id : String)
  | pong
deriving DecidableEq, Repr

/-- One row of the `messages` table. -/
structure Message where
  id : Nat
  sender_id : String
  recipient_id : String
  encrypted_content : String
  encrypted_for_sender : String
  reply_to_id : Option Nat
  delete_mode : String
  is_read : Bool
  created_at : Nat
deriving DecidableEq, Repr

/-- One row of the `users` table (the fields the modelled endpoints touch). -/
structure UserRow where
  user_id : String
  public_key : String
  display_name : Option String
  avatar : Option String
  is_online : Bool
  last_seen : Nat
deriving DecidableEq, Repr

/-- One row of the `chat_groups` table. -/
structure GroupRow where
  group_id : String
  name : String
  created_by : String
  avatar : Option String
deriving DecidableEq, Repr

/-- One row of the `group_members` table. -/
structure GroupMember where
  group_id : String
  user_id : String
  encrypted_group_key : String
deriving DecidableEq, Repr

/-- One row of the `group_messages` table. -/
structure GroupMessage where
  id : Nat
  group_id : String
  sender_id : String
  encrypted_content : String
  created_at : Nat
deriving DecidableEq, Repr

/-- The whole server state: the database tables, the in-memory
`ConnectionManager.active_connections` map (an association list
`user_id -> channel handle`), which channel handles are still alive, the log
of successfully delivered pushes, and the id/time counters. -/
structure ServerState where
  users : List UserRow
  messages : List Message
  blocked_users : List (String × String)
  chat_groups : List GroupRow
  group_members : List GroupMember
  group_messages : List GroupMessage
  active_connections : List (String × Nat)
  chanAlive : Nat → Bool
  delivered : List (String × Nat × Event)
  nextMessageId : Nat
  nextGroupMessageId : Nat
  nextGroupNum : Nat
  time : Nat

/-- Request body of POST /api/messages. -/
structure MessageCreate where
  recipient_id : String
  encrypted_content : String
  encrypted_for_sender : String
  reply_to_id : Option Nat
  delete_mode : String
deriving DecidableEq, Repr

/-- Request body of POST /api/groups; the Python `Dict[str, str]` of
encrypted keys becomes an association list. -/
structure GroupCreate where
  name : String
  member_ids : List String
  encrypted_keys : List (String × String)
deriving DecidableEq, Repr

/-- Request body of POST /api/groups/{group_id}/messages. -/
structure GroupMessageCreate where
  encrypted_content : String
deriving DecidableEq, Repr

/-- The typed errors raised as HTTPException by the modelled endpoints. -/
inductive ApiError where
  | Blocked
  | NotFound
deriving DecidableEq, Repr

/-- `user_id in self.active_connections` / `self.active_connections[user_id]`:
the channel registered for a user, if any. -/
def lookupConn (st : ServerState) (user_id : String) : Option Nat :=
  (st.active_connections.find? (fun p => p.1 == user_id)).map (fun p => p.2)

/-- `del self.active_connections[user_id]` (idempotent, as in `disconnect`). -/
def removeConn (st : ServerState) (user_id : String) : ServerState :=
  { st with active_connections := st.active_connections.filter (fun p => p.1 != user_id) }

/-- The `UPDATE users SET is_online = ..., last_seen = NOW() WHERE user_id = ...`
statement run by `connect` and `disconnect`. -/
def updateUserStatus (st : ServerState) (user_id : String) (is_online : Bool) : ServerState :=
  { st with
    users := st.users.map (fun u =>
      if u.user_id == user_id then { u with is_online := is_online, last_seen := st.time } else u),
    time := st.time + 1 }

/-- A successful `websocket.send_json`: the event is appended to the log,
tagged with the target user and the channel it went out on. -/
def deliver (st : ServerState) (user_id : String) (ch : Nat) (ev : Event) : ServerState :=
  { st with delivered := st.delivered ++ [(user_id, ch, ev)] }

/-- The `SELECT DISTINCT CASE WHEN sender_id = u THEN recipient_id ELSE sender_id END
FROM messages WHERE sender_id = u OR recipient_id = u` query of
`broadcast_status`. -/
def contactsOf (st : ServerState) (user_id : String) : List String :=
  (st.messages.filterMap (fun m =>
    if m.sender_id == user_id then some m.recipient_id
    else if m.recipient_id == user_id then some m.sender_id
    else none)).dedup

/-- `ConnectionManager.send_to_user`: deliver to the registered channel if the
user is connected; a dead channel raises, which the bare `except` turns into
`ConnectionManager.disconnect` (inlined here: unregister, mark offline,
broadcast `user_offline` to the contacts).  One unit of fuel per call. -/
def send_to_user : Nat → ServerState → String → Event → ServerState
  | 0, st, _, _ => st
  | fuel + 1, st, user_id, ev =>
    match lookupConn st user_id with
    | none => st
    | some ch =>
      if st.chanAlive ch then deliver st user_id ch ev
      else
        let st1 := updateUserStatus (removeConn st user_id) user_id false
        (contactsOf st1 user_id).foldl
          (fun s c => send_to_user fuel s c (Event.user_offline user_id)) st1

/-- `ConnectionManager.broadcast_status`: push a `user_online`/`user_offline`
event to every contact derived from the message history. -/
def broadcast_status (fuel : Nat) (st : ServerState) (user_id : String) (is_online : Bool) :
    ServerState :=
  let ev := if is_online then Event.user_online user_id else Event.user_offline user_id
  (contactsOf st user_id).foldl (fun s c => send_to_user fuel s c ev) st

/-- `ConnectionManager.disconnect`: unregister, mark the user offline, then
broadcast `user_offline`. -/
def disconnect (fuel : Nat) (st : ServerState) (user_id : String) : ServerState :=
  broadcast_status fuel (updateUserStatus (removeConn st user_id) user_id false) user_id false

/-- `ConnectionManager.connect`: register the channel for the user (a dict
assignment, superseding any previous entry), mark the user online, then
broadcast `user_online`. -/
def connect (fuel : Nat) (st : ServerState) (user_id : String) (ch : Nat) : ServerState :=
  let st1 := { st with
    active_connections := (user_id, ch) :: st.active_connections.filter (fun p => p.1 != user_id) }
  broadcast_status fuel (updateUserStatus st1 user_id true) user_id true

/-- POST /api/messages (`send_message`): reject with 403 when
`blocked_users` holds the row (recipient_id, sender_id); otherwise insert the
message row, then best-effort push `new_message` to the recipient. -/
def send_message (fuel : Nat) (st : ServerState) (sender_id : String) (message : MessageCreate) :
    Except ApiError Nat × ServerState :=
  if (message.recipient_id, sender_id) ∈ st.blocked_users then
    (Except.error ApiError.Blocked, st)
  else
    let message_id := st.nextMessageId
    let row : Message :=
      { id := message_id, sender_id := sender_id, recipient_id := message.recipient_id,
        encrypted_content := message.encrypted_content,
        encrypted_for_sender := message.encrypted_for_sender,
        reply_to_id := message.reply_to_id, delete_mode := message.delete_mode,
        is_read := false, created_at := st.time }
    let st1 := { st with
      messages := st.messages ++ [row], nextMessageId := message_id + 1, time := st.time + 1 }
    (Except.ok message_id,
      send_to_user fuel st1 message.recipient_id
        (Event.new_message message_id sender_id message.encrypted_content))

/-- One result row of GET /api/messages/{contact_id}: the message columns
plus the three LEFT-JOINed reply columns. -/
structure MessageView where
  msg : Message
  reply_encrypted_content : Option String
  reply_encrypted_for_sender : Option String
  reply_sender_id : Option String
deriving DecidableEq, Repr

/-- The `LEFT JOIN messages r ON m.reply_to_id = r.id` of `get_messages`:
a missing reply target (or no `reply_to_id`) yields NULL columns. -/
def enrich (st : ServerState) (m : Message) : MessageView :=
  match m.reply_to_id with
  | none => ⟨m, none, none, none⟩
  | some rid =>
    match st.messages.find? (fun r => r.id == rid) with
    | none => ⟨m, none, none, none⟩
    | some r => ⟨m, some r.encrypted_content, some r.encrypted_for_sender, some r.sender_id⟩

/-- The ORDER BY key of `get_messages`: creation time, ascending. -/
def msgLe (m1 m2 : Message) : Prop := m1.created_at ≤ m2.created_at

instance : DecidableRel msgLe := fun a b => Nat.decLe a.created_at b.created_at

instance : IsTotal Message msgLe := ⟨fun a b => Nat.le_total a.created_at b.created_at⟩

instance : IsTrans Message msgLe := ⟨fun _ _ _ h1 h2 => Nat.le_trans h1 h2⟩

/-- The WHERE clause of `get_messages`: the message travels between the two
users, in either direction. -/
def between_users (a b : String) (m : Message) : Bool :=
  (m.sender_id == a && m.recipient_id == b) || (m.sender_id == b && m.recipient_id == a)

/-- GET /api/messages/{contact_id} (`get_messages`): both directions of the
conversation, ordered by creation time ascending, each row enriched with its
reply target. -/
def get_messages (st : ServerState) (user_id : String) (contact_id : String) : List MessageView :=
  (List.insertionSort msgLe (st.messages.filter (between_users user_id contact_id))).map
    (enrich st)

/-- The per-row effect of the read-receipt UPDATE: flip `is_read` when the
row matches sender, recipient and `is_read = FALSE`. -/
def flipRead (sender_id recipient_id : String) (m : Message) : Message :=
  if m.sender_id == sender_id && m.recipient_id == recipient_id && m.is_read == false then
    { m with is_read := true }
  else m

/-- The `UPDATE messages SET is_read = TRUE WHERE sender_id = ... AND
recipient_id = ... AND is_read = FALSE` run by the websocket endpoint's
`read` branch. -/
def markRead (st : ServerState) (sender_id recipient_id : String) : ServerState :=
  { st with messages := st.messages.map (flipRead sender_id recipient_id) }

/-- The member loop of `create_group`: for each listed member that supplied a
key and is not the creator, insert a membership row and best-effort push
`group_added`. -/
def add_members (fuel : Nat) (group_id gname user_id : String)
    (keys : List (String × String)) : List String → ServerState → ServerState
  | [], st => st
  | member_id :: rest, st =>
    match keys.lookup member_id with
    | some k =>
      if member_id != user_id then
        let st1 := { st with group_members := st.group_members ++ [⟨group_id, member_id, k⟩] }
        add_members fuel group_id gname user_id keys rest
          (send_to_user fuel st1 member_id (Event.group_added group_id gname))
      else add_members fuel group_id gname user_id keys rest st
    | none => add_members fuel group_id gname user_id keys rest st

/-- POST /api/groups (`create_group`): allocate a fresh group id (the
`uuid.uuid4()` call becomes a counter-derived token), insert the group row,
insert the creator's membership row only if the creator supplied their own
key, then run the member loop. -/
def create_group (fuel : Nat) (st : ServerState) (user_id : String) (group : GroupCreate) :
    String × ServerState :=
  let group_id := toString st.nextGroupNum
  let st1 := { st with
    nextGroupNum := st.nextGroupNum + 1,
    chat_groups := st.chat_groups ++ [⟨group_id, group.name, user_id, none⟩] }
  let st2 :=
    match group.encrypted_keys.lookup user_id with
    | some k => { st1 with group_members := st1.group_members ++ [⟨group_id, user_id, k⟩] }
    | none => st1
  (group_id, add_members fuel group_id group.name user_id group.encrypted_keys group.member_ids st2)

/-- One result row of GET /api/groups. -/
structure GroupSummary where
  group_id : String
  name : String
  avatar : Option String
  member_count : Nat
deriving DecidableEq, Repr

/-- GET /api/groups (`get_groups`): the groups having a membership row for
the user, each with its member count. -/
def get_groups (st : ServerState) (user_id : String) : List GroupSummary :=
  (st.chat_groups.filter (fun g =>
    st.group_members.any (fun gm => gm.group_id == g.group_id && gm.user_id == user_id))).map
    (fun g =>
      ⟨g.group_id, g.name, g.avatar,
        (st.group_members.filter (fun gm => gm.group_id == g.group_id)).length⟩)

/-- The result row of GET /api/groups/{group_id}. -/
structure GroupDetail where
  group_id : String
  name : String
  created_by : String
  avatar : Option String
  encrypted_group_key : String
  member_count : Nat
deriving DecidableEq, Repr

/-- GET /api/groups/{group_id} (`get_group`): the inner JOIN with the
caller's own membership row makes the query return no row — hence 404 —
unless (group_id, user_id) is a member pair. -/
def get_group (st : ServerState) (group_id user_id : String) : Except ApiError GroupDetail :=
  match st.chat_groups.find? (fun g => g.group_id == group_id),
        st.group_members.find? (fun gm => gm.group_id == group_id && gm.user_id == user_id) with
  | some g, some gm =>
    Except.ok
      ⟨g.group_id, g.name, g.created_by, g.avatar, gm.encrypted_group_key,
        (st.group_members.filter (fun x => x.group_id == group_id)).length⟩
  | _, _ => Except.error ApiError.NotFound

/-- POST /api/groups/{group_id}/messages (`send_group_message`): insert the
group message unconditionally (no membership check), then best-effort push
`group_message` to every member other than the sender. -/
def send_group_message (fuel : Nat) (st : ServerState) (group_id user_id : String)
    (message : GroupMessageCreate) : Nat × ServerState :=
  let message_id := st.nextGroupMessageId
  let row : GroupMessage :=
    { id := message_id, group_id := group_id, sender_id := user_id,
      encrypted_content := message.encrypted_content, created_at := st.time }
  let st1 := { st with
    group_messages := st.group_messages ++ [row],
    nextGroupMessageId := message_id + 1, time := st.time + 1 }
  let members := (st1.group_members.filter
    (fun gm => gm.group_id == group_id && gm.user_id != user_id)).map (fun gm => gm.user_id)
  (message_id,
    members.foldl (fun s m => send_to_user fuel s m (Event.group_message group_id message_id)) st1)

/-- One result row of GET /api/groups/{group_id}/messages: the message
columns plus the sender's display name from the JOIN with `users`. -/
structure GroupMessageView where
  msg : GroupMessage
  sender_name : Option String
deriving DecidableEq, Repr

/-- The ORDER BY key of `get_group_messages`. -/
def gmLe (a b : GroupMessageView) : Prop := a.msg.created_at ≤ b.msg.created_at

instance : DecidableRel gmLe := fun a b => Nat.decLe a.msg.created_at b.msg.created_at

instance : IsTotal GroupMessageView gmLe :=
  ⟨fun a b => Nat.le_total a.msg.created_at b.msg.created_at⟩

instance : IsTrans GroupMessageView gmLe := ⟨fun _ _ _ h1 h2 => Nat.le_trans h1 h2⟩

/-- GET /api/groups/{group_id}/messages (`get_group_messages`): the group's
messages JOINed with `users` for the sender name, ordered by creation time;
the caller's `user_id` query parameter is accepted but never consulted. -/
def get_group_messages (st : ServerState) (group_id : String) (user_id : String) :
    List GroupMessageView :=
  List.insertionSort gmLe
    ((st.group_messages.filter (fun gm => gm.group_id == group_id)).filterMap
      (fun gm => (st.users.find? (fun u => u.user_id == gm.sender_id)).map
        (fun u => (⟨gm, u.display_name⟩ : GroupMessageView))))

/-! ## Generic invariant helpers -/

/-- An invariant preserved by every step of a `foldl` is preserved by the
whole fold. -/
theorem foldl_preserves {α β : Type _} (f : β → α → β) (P : β → Prop)
    (h : ∀ b a, P b → P (f b a)) : ∀ (l : List α) (b : β), P b → P (l.foldl f b)
  | [], _, hb => hb
  | a :: l, b, hb => foldl_preserves f P h l (f b a) (h b a hb)

/-- The two states agree on every database table, on channel liveness and on
the id counters (they may differ in `users`, `active_connections`,
`delivered` and `time`). -/
def tablesEq (a b : ServerState) : Prop :=
  a.messages = b.messages ∧ a.blocked_users = b.blocked_users ∧
  a.chat_groups = b.chat_groups ∧ a.group_members = b.group_members ∧
  a.group_messages = b.group_messages ∧ a.chanAlive = b.chanAlive ∧
  a.nextMessageId = b.nextMessageId ∧ a.nextGroupMessageId = b.nextGroupMessageId ∧
  a.nextGroupNum = b.nextGroupNum

theorem tablesEq_refl (a : ServerState) : tablesEq a a :=
  ⟨rfl, rfl, rfl, rfl, rfl, rfl, rfl, rfl, rfl⟩

theorem tablesEq_trans {a b c : ServerState} (h1 : tablesEq a b) (h2 : tablesEq b c) :
    tablesEq a c := by
  obtain ⟨e1, e2, e3, e4, e5, e6, e7, e8, e9⟩ := h1
  obtain ⟨f1, f2, f3, f4, f5, f6, f7, f8, f9⟩ := h2
  exact ⟨e1.trans f1, e2.trans f2, e3.trans f3, e4.trans f4, e5.trans f5, e6.trans f6,
    e7.trans f7, e8.trans f8, e9.trans f9⟩

/-! ## What `send_to_user` can and cannot change -/

/-- A best-effort push, whatever cascade of disconnects it triggers, never
touches a database table, channel liveness, or an id counter. -/
theorem send_to_user_tablesEq :
    ∀ (fuel : Nat) (st : ServerState) (user_id : String) (ev : Event),
      tablesEq (send_to_user fuel st user_id ev) st := by
  intro fuel
  induction fuel with
  | zero => intro st uid ev; exact tablesEq_refl st
  | succ fuel ih =>
    intro st uid ev
    simp only [send_to_user]
    cases hc : lookupConn st uid with
    | none => exact tablesEq_refl st
    | some ch =>
      by_cases ha : st.chanAlive ch = true
      · simp only [ha, if_true]
        exact ⟨rfl, rfl, rfl, rfl, rfl, rfl, rfl, rfl, rfl⟩
      · simp only [ha, if_false, Bool.false_eq_true]
        exact foldl_preserves _ (fun s => tablesEq s st)
          (fun b a hb => tablesEq_trans (ih b a _) hb) _ _
          ⟨rfl, rfl, rfl, rfl, rfl, rfl, rfl, rfl, rfl⟩

/-- A best-effort push never adds a registry entry: every session after the
push was already registered before it. -/
theorem send_to_user_active_subset :
    ∀ (fuel : Nat) (st : ServerState) (user_id : String) (ev : Event),
      ∀ p ∈ (send_to_user fuel st user_id ev).active_connections,
        p ∈ st.active_connections := by
  intro fuel
  induction fuel with
  | zero => intro st uid ev p hp; exact hp
  | succ fuel ih =>
    intro st uid ev
    simp only [send_to_user]
    cases hc : lookupConn st uid with
    | none => intro p hp; exact hp
    | some ch =>
      by_cases ha : st.chanAlive ch = true
      · simp only [ha, if_true]
        intro p hp; exact hp
      · simp only [ha, if_false, Bool.false_eq_true]
        refine foldl_preserves _ (fun s => ∀ q ∈ s.active_connections, q ∈ st.active_connections)
          (fun b a hb q hq => hb q (ih b a _ q hq)) _ _ ?_
        intro q hq
        have hq2 : q ∈ st.active_connections.filter (fun p => p.1 != uid) := hq
        exact List.mem_of_mem_filter hq2

/-- Two states with the same registry resolve every lookup alike. -/
theorem lookupConn_eq (s t : ServerState)
    (h : s.active_connections = t.active_connections) (u : String) :
    lookupConn s u = lookupConn t u := by
  simp [lookupConn, h]

/-- A lookup misses exactly when no registry entry carries the key. -/
theorem lookupConn_eq_none (s : ServerState) (u : String) :
    lookupConn s u = none ↔ ∀ p ∈ s.active_connections, p.1 ≠ u := by
  simp [lookupConn, List.find?_eq_none]

/-- When every channel is alive, a push is pure delivery: the registry, the
liveness map, the message table and the user table are untouched. -/
theorem send_to_user_alive_eq (fuel : Nat) (st : ServerState) (user_id : String) (ev : Event)
    (h : ∀ c, st.chanAlive c = true) :
    (send_to_user fuel st user_id ev).active_connections = st.active_connections ∧
    (send_to_user fuel st user_id ev).chanAlive = st.chanAlive := by
  cases fuel with
  | zero => exact ⟨rfl, rfl⟩
  | succ fuel =>
    simp only [send_to_user]
    cases hc : lookupConn st user_id with
    | none => exact ⟨rfl, rfl⟩
    | some ch =>
      simp only [h ch, if_true]
      exact ⟨rfl, rfl⟩

/-- Pushing one event to each user of a list, when every channel is alive and
there is fuel for the call, delivers exactly one copy to each listed user
that has a registered session — on that session's channel — and nothing to
the others, leaving the registry and the liveness map unchanged. -/
theorem foldl_send_delivered (fuel : Nat) (hf : 1 ≤ fuel) (ev : Event) (target : ServerState)
    (h : ∀ c, target.chanAlive c = true) :
    ∀ (l : List String) (s : ServerState),
      s.active_connections = target.active_connections → s.chanAlive = target.chanAlive →
      ((l.foldl (fun s c => send_to_user fuel s c ev) s).delivered =
        s.delivered ++ l.filterMap (fun c => (lookupConn target c).map (fun ch => (c, ch, ev)))) ∧
      (l.foldl (fun s c => send_to_user fuel s c ev) s).active_connections =
        target.active_connections ∧
      (l.foldl (fun s c => send_to_user fuel s c ev) s).chanAlive = target.chanAlive := by
  obtain ⟨k, rfl⟩ : ∃ k, fuel = k + 1 := ⟨fuel - 1, by omega⟩
  intro l
  induction l with
  | nil => intro s h1 h2; simpa using ⟨h1, h2⟩
  | cons c rest ih =>
    intro s h1 h2
    have hlc : lookupConn s c = lookupConn target c := lookupConn_eq s target h1 c
    simp only [List.foldl_cons]
    cases hv : lookupConn target c with
    | none =>
      have hstep : send_to_user (k + 1) s c ev = s := by
        rw [send_to_user, hlc, hv]
      rw [hstep]
      obtain ⟨d1, d2, d3⟩ := ih s h1 h2
      refine ⟨?_, d2, d3⟩
      rw [d1]
      simp [hv]
    | some ch =>
      have halive : s.chanAlive ch = true := by rw [h2]; exact h ch
      have hstep : send_to_user (k + 1) s c ev = deliver s c ch ev := by
        rw [send_to_user, hlc, hv]
        simp [halive]
      rw [hstep]
      obtain ⟨d1, d2, d3⟩ := ih (deliver s c ch ev) h1 h2
      refine ⟨?_, d2, d3⟩
      rw [d1]
      simp [deliver, hv]

/-- A presence broadcast over live channels never changes the registry or
the liveness map. -/
theorem broadcast_status_alive_eq (fuel : Nat) (st : ServerState) (user_id : String)
    (is_online : Bool) (h : ∀ c, st.chanAlive c = true) :
    (broadcast_status fuel st user_id is_online).active_connections = st.active_connections ∧
    (broadcast_status fuel st user_id is_online).chanAlive = st.chanAlive := by
  unfold broadcast_status
  refine foldl_preserves _
    (fun s : ServerState =>
      s.active_connections = st.active_connections ∧ s.chanAlive = st.chanAlive)
    (fun b a hb => ?_) _ _ ⟨rfl, rfl⟩
  obtain ⟨hb1, hb2⟩ := hb
  obtain ⟨e1, e2⟩ := send_to_user_alive_eq fuel b a _ (fun c => by rw [hb2]; exact h c)
  exact ⟨e1.trans hb1, e2.trans hb2⟩

/-- Registering a session over live channels: the new channel supersedes
any previous entry for the user, and channel liveness is untouched. -/
theorem connect_active (fuel : Nat) (st : ServerState) (u : String) (ch : Nat)
    (h : ∀ c, st.chanAlive c = true) :
    (connect fuel st u ch).active_connections =
      (u, ch) :: st.active_connections.filter (fun p => p.1 != u) ∧
    (connect fuel st u ch).chanAlive = st.chanAlive := by
  unfold connect
  exact broadcast_status_alive_eq fuel _ u true h

/-! ## The durable write path of /api/messages -/

/-- With no block relation (recipient_id, sender_id), `send_message` returns
the freshly assigned id and appends exactly one row, whatever the push does
afterwards. -/
theorem send_message_ok_core (fuel : Nat) (st : ServerState) (sender_id : String)
    (message : MessageCreate)
    (hnb : (message.recipient_id, sender_id) ∉ st.blocked_users) :
    (send_message fuel st sender_id message).1 = Except.ok st.nextMessageId ∧
    (send_message fuel st sender_id message).2.messages =
      st.messages ++ [⟨st.nextMessageId, sender_id, message.recipient_id,
        message.encrypted_content, message.encrypted_for_sender, message.reply_to_id,
        message.delete_mode, false, st.time⟩] := by
  unfold send_message
  rw [if_neg hnb]
  refine ⟨rfl, ?_⟩
  exact (send_to_user_tablesEq fuel _ message.recipient_id _).1

/-- The second component of a non-blocked `send_message` is the push running
on the state holding the freshly inserted row. -/
theorem send_message_snd (fuel : Nat) (st : ServerState) (sender_id : String)
    (message : MessageCreate)
    (hnb : (message.recipient_id, sender_id) ∉ st.blocked_users) :
    (send_message fuel st sender_id message).2 =
      send_to_user fuel
        { st with
          messages := st.messages ++ [⟨st.nextMessageId, sender_id, message.recipient_id,
            message.encrypted_content, message.encrypted_for_sender, message.reply_to_id,
            message.delete_mode, false, st.time⟩],
          nextMessageId := st.nextMessageId + 1, time := st.time + 1 }
        message.recipient_id
        (Event.new_message st.nextMessageId sender_id message.encrypted_content) := by
  unfold send_message
  rw [if_neg hnb]

/-- C1: when a block relation (recipient_id blocks sender_id) exists,
`send_message` fails with the `Blocked` error, the whole state is unchanged,
and a subsequent `get_messages` returns exactly the rows it returned before
the call, for every pair of users. -/
theorem C1_blocked_send_rejected (fuel : Nat) (st : ServerState) (sender_id : String)
    (message : MessageCreate)
    (hb : (message.recipient_id, sender_id) ∈ st.blocked_users) :
    send_message fuel st sender_id message = (Except.error ApiError.Blocked, st) ∧
    ∀ a b : String,
      get_messages (send_message fuel st sender_id message).2 a b = get_messages st a b := by
  have h1 : send_message fuel st sender_id message = (Except.error ApiError.Blocked, st) := by
    unfold send_message
    rw [if_pos hb]
  exact ⟨h1, fun a b => by rw [h1]⟩

/-- C2: with no block relation, `send_message` succeeds with the assigned id
on the strength of the durable insert alone: for every fuel and every state
— recipient registered or not, channel alive or dead — the result is
`ok` with the fresh id and the stored rows are exactly the old rows plus the
new one; the push can only shrink the registry, and when the recipient's
registered channel is dead the session is unregistered. -/
theorem C2_send_result_from_persistence_alone (fuel : Nat) (st : ServerState)
    (sender_id : String) (message : MessageCreate)
    (hnb : (message.recipient_id, sender_id) ∉ st.blocked_users) :
    (send_message fuel st sender_id message).1 = Except.ok st.nextMessageId ∧
    (send_message fuel st sender_id message).2.messages =
      st.messages ++ [⟨st.nextMessageId, sender_id, message.recipient_id,
        message.encrypted_content, message.encrypted_for_sender, message.reply_to_id,
        message.delete_mode, false, st.time⟩] ∧
    (∀ p ∈ (send_message fuel st sender_id message).2.active_connections,
      p ∈ st.active_connections) ∧
    (∀ ch, lookupConn st message.recipient_id = some ch → st.chanAlive ch = false →
      1 ≤ fuel →
      lookupConn (send_message fuel st sender_id message).2 message.recipient_id = none) := by
  obtain ⟨hres, hmsgs⟩ := send_message_ok_core fuel st sender_id message hnb
  have hsnd := send_message_snd fuel st sender_id message hnb
  refine ⟨hres, hmsgs, ?_, ?_⟩
  · intro p hp
    rw [hsnd] at hp
    have h2 := send_to_user_active_subset fuel _ _ _ p hp
    exact h2
  · intro ch hlk hdead hf
    rw [hsnd]
    obtain ⟨k, rfl⟩ : ∃ k, fuel = k + 1 := ⟨fuel - 1, by omega⟩
    rw [send_to_user]
    have hlk2 : lookupConn
        { st with
          messages := st.messages ++ [⟨st.nextMessageId, sender_id, message.recipient_id,
            message.encrypted_content, message.encrypted_for_sender, message.reply_to_id,
            message.delete_mode, false, st.time⟩],
          nextMessageId := st.nextMessageId + 1, time := st.time + 1 }
        message.recipient_id = some ch := hlk
    rw [hlk2]
    simp only [hdead, Bool.false_eq_true, if_false]
    rw [lookupConn_eq_none]
    refine foldl_preserves _
      (fun s : ServerState => ∀ p ∈ s.active_connections, p.1 ≠ message.recipient_id)
      (fun b a hb q hq => hb q (send_to_user_active_subset k b a _ q hq)) _ _ ?_
    intro p hp
    have hp2 : p ∈ st.active_connections.filter (fun q => q.1 != message.recipient_id) := hp
    simpa using (List.mem_filter.mp hp2).2

/-- C10: the block check is one-directional: when only the sender blocks the
recipient (and the recipient does not block the sender), `send_message`
succeeds and persists the row exactly as when no block relation exists. -/
theorem C10_block_check_one_directional (fuel : Nat) (st : ServerState) (sender_id : String)
    (message : MessageCreate)
    (hfwd : (sender_id, message.recipient_id) ∈ st.blocked_users)
    (hrev : (message.recipient_id, sender_id) ∉ st.blocked_users) :
    (send_message fuel st sender_id message).1 = Except.ok st.nextMessageId ∧
    (send_message fuel st sender_id message).2.messages =
      st.messages ++ [⟨st.nextMessageId, sender_id, message.recipient_id,
        message.encrypted_content, message.encrypted_for_sender, message.reply_to_id,
        message.delete_mode, false, st.time⟩] :=
  send_message_ok_core fuel st sender_id message hrev

/-! ## Concrete states for witnesses and counterexamples -/

/-- The empty server: no rows in any table, nobody registered, every channel
handle alive, fresh id counters. -/
def st0 : ServerState where
  users := []
  messages := []
  blocked_users := []
  chat_groups := []
  group_members := []
  group_messages := []
  active_connections := []
  chanAlive := fun _ => true
  delivered := []
  nextMessageId := 1
  nextGroupMessageId := 1
  nextGroupNum := 0
  time := 0

/-- The empty server with one block relation: bob blocks alice. -/
def stBlocked : ServerState := { st0 with blocked_users := [("bob", "alice")] }

/-- The empty server with one block relation the other way: alice blocks bob. -/
def stBlocker : ServerState := { st0 with blocked_users := [("alice", "bob")] }

theorem C1_witness :
    ("bob", "alice") ∈ stBlocked.blocked_users ∧
    (send_message 0 stBlocked "alice" ⟨"bob", "ctB", "ctA", none, "never"⟩ =
        (Except.error ApiError.Blocked, stBlocked) ∧
      ∀ a b : String,
        get_messages (send_message 0 stBlocked "alice" ⟨"bob", "ctB", "ctA", none, "never"⟩).2
          a b = get_messages stBlocked a b) :=
  ⟨by decide, C1_blocked_send_rejected 0 stBlocked "alice" ⟨"bob", "ctB", "ctA", none, "never"⟩
    (by decide)⟩

theorem C2_witness :
    (("bob", "alice") ∉ st0.blocked_users) ∧
    ((send_message 1 st0 "alice" ⟨"bob", "ctB", "ctA", none, "never"⟩).1 =
        Except.ok st0.nextMessageId ∧
      (send_message 1 st0 "alice" ⟨"bob", "ctB", "ctA", none, "never"⟩).2.messages =
        st0.messages ++ [⟨st0.nextMessageId, "alice", "bob", "ctB", "ctA", none, "never",
          false, st0.time⟩] ∧
      (∀ p ∈ (send_message 1 st0 "alice" ⟨"bob", "ctB", "ctA", none, "never"⟩).2.active_connections,
        p ∈ st0.active_connections) ∧
      (∀ ch, lookupConn st0 "bob" = some ch → st0.chanAlive ch = false → 1 ≤ 1 →
        lookupConn (send_message 1 st0 "alice" ⟨"bob", "ctB", "ctA", none, "never"⟩).2 "bob" =
          none)) :=
  ⟨by decide,
    C2_send_result_from_persistence_alone 1 st0 "alice" ⟨"bob", "ctB", "ctA", none, "never"⟩
      (by decide)⟩

theorem C10_witness :
    ("alice", "bob") ∈ stBlocker.blocked_users ∧
    ("bob", "alice") ∉ stBlocker.blocked_users ∧
    ((send_message 0 stBlocker "alice" ⟨"bob", "ctB", "ctA", none, "never"⟩).1 =
        Except.ok stBlocker.nextMessageId ∧
      (send_message 0 stBlocker "alice" ⟨"bob", "ctB", "ctA", none, "never"⟩).2.messages =
        stBlocker.messages ++ [⟨stBlocker.nextMessageId, "alice", "bob", "ctB", "ctA", none,
          "never", false, stBlocker.time⟩]) :=
  ⟨by decide, by decide,
    C10_block_check_one_directional 0 stBlocker "alice" ⟨"bob", "ctB", "ctA", none, "never"⟩
      (by decide) (by decide)⟩

/-- C4, counterexample: on the empty store, `send_message` with
`reply_to_id = 5` commits the row — the returned id is 1, the stored row
carries `reply_to_id = some 5`, and no message with id 5 exists before or
after the call.  `send_message` performs no validation of `reply_to_id`. -/
theorem C4_counterexample_dangling_reply :
    (send_message 0 st0 "alice" ⟨"bob", "ctB", "ctA", some 5, "never"⟩).1 = Except.ok 1 ∧
    ((send_message 0 st0 "alice" ⟨"bob", "ctB", "ctA", some 5, "never"⟩).2.messages.map
      (fun m => m.reply_to_id)) = [some 5] ∧
    (st0.messages.all (fun m => m.id != 5)) = true ∧
    ((send_message 0 st0 "alice" ⟨"bob", "ctB", "ctA", some 5, "never"⟩).2.messages.all
      (fun m => m.id != 5)) = true := by
  refine ⟨rfl, rfl, rfl, rfl⟩

/-- C4 (amended): `send_message` does not check `reply_to_id` against
existing messages; whenever the send is not blocked, the freshly inserted
row stores the caller-supplied `reply_to_id` verbatim, whether or not any
message with that id exists. -/
theorem C4_reply_to_id_stored_unvalidated (fuel : Nat) (st : ServerState) (sender_id : String)
    (message : MessageCreate)
    (hnb : (message.recipient_id, sender_id) ∉ st.blocked_users) :
    ∃ m, m ∈ (send_message fuel st sender_id message).2.messages ∧
      m.id = st.nextMessageId ∧ m.reply_to_id = message.reply_to_id := by
  obtain ⟨-, h2⟩ := send_message_ok_core fuel st sender_id message hnb
  refine ⟨⟨st.nextMessageId, sender_id, message.recipient_id, message.encrypted_content,
    message.encrypted_for_sender, message.reply_to_id, message.delete_mode, false, st.time⟩,
    ?_, rfl, rfl⟩
  rw [h2]
  exact List.mem_append_right _ (List.mem_singleton.mpr rfl)

theorem C4_witness :
    (("bob", "alice") ∉ st0.blocked_users) ∧
    (∃ m, m ∈ (send_message 0 st0 "alice" ⟨"bob", "ctB", "ctA", some 5, "never"⟩).2.messages ∧
      m.id = st0.nextMessageId ∧ m.reply_to_id = some 5) :=
  ⟨by decide,
    C4_reply_to_id_stored_unvalidated 0 st0 "alice" ⟨"bob", "ctB", "ctA", some 5, "never"⟩
      (by decide)⟩

/-- C3: after registering user U a second time (over live channels), the
registry resolves U to the second channel only, and a subsequent push to U
goes out on the second channel — the superseded first channel receives
nothing. -/
theorem C3_second_registration_supersedes (fuel1 fuel2 fuel3 : Nat) (st : ServerState)
    (U : String) (c1 c2 : Nat) (ev : Event)
    (halive : ∀ c, st.chanAlive c = true) (hf3 : 1 ≤ fuel3) :
    lookupConn (connect fuel2 (connect fuel1 st U c1) U c2) U = some c2 ∧
    send_to_user fuel3 (connect fuel2 (connect fuel1 st U c1) U c2) U ev =
      deliver (connect fuel2 (connect fuel1 st U c1) U c2) U c2 ev := by
  obtain ⟨a1, h1⟩ := connect_active fuel1 st U c1 halive
  have halive1 : ∀ c, (connect fuel1 st U c1).chanAlive c = true := fun c => by
    rw [h1]; exact halive c
  obtain ⟨a2, h2⟩ := connect_active fuel2 (connect fuel1 st U c1) U c2 halive1
  have hlk : lookupConn (connect fuel2 (connect fuel1 st U c1) U c2) U = some c2 := by
    rw [lookupConn, a2]
    simp
  refine ⟨hlk, ?_⟩
  obtain ⟨k, rfl⟩ : ∃ k, fuel3 = k + 1 := ⟨fuel3 - 1, by omega⟩
  rw [send_to_user, hlk]
  have hc2 : (connect fuel2 (connect fuel1 st U c1) U c2).chanAlive c2 = true := by
    rw [h2, h1]; exact halive c2
  simp [hc2]

theorem C3_witness :
    (∀ c, st0.chanAlive c = true) ∧ 1 ≤ 1 ∧
    (lookupConn (connect 0 (connect 0 st0 "u" 1) "u" 2) "u" = some 2 ∧
      send_to_user 1 (connect 0 (connect 0 st0 "u" 1) "u" 2) "u" Event.pong =
        deliver (connect 0 (connect 0 st0 "u" 1) "u" 2) "u" 2 Event.pong) :=
  ⟨fun _ => rfl, by decide,
    C3_second_registration_supersedes 0 0 1 st0 "u" 1 2 Event.pong (fun _ => rfl) (by decide)⟩

/-- C8: a presence broadcast for user U (over live channels, with fuel for
the push) delivers exactly one `user_online`/`user_offline` event to each
distinct counterpart of U's direct-message history that has a registered
session — on that session's channel — and nothing to counterparts without a
session; the contact list is duplicate-free and the registry is unchanged. -/
theorem C8_presence_broadcast (fuel : Nat) (st : ServerState) (user_id : String)
    (is_online : Bool) (halive : ∀ c, st.chanAlive c = true) (hf : 1 ≤ fuel) :
    (broadcast_status fuel st user_id is_online).delivered =
      st.delivered ++ (contactsOf st user_id).filterMap (fun c =>
        (lookupConn st c).map (fun ch =>
          (c, ch, if is_online then Event.user_online user_id else Event.user_offline user_id))) ∧
    (contactsOf st user_id).Nodup ∧
    (broadcast_status fuel st user_id is_online).active_connections = st.active_connections := by
  obtain ⟨d1, d2, d3⟩ := foldl_send_delivered fuel hf
    (if is_online then Event.user_online user_id else Event.user_offline user_id) st halive
    (contactsOf st user_id) st rfl rfl
  exact ⟨d1, List.nodup_dedup _, d2⟩

/-- A small populated state: user u has exchanged messages with p1 and p2,
and only p1 has a live session (channel 7). -/
def stPresence : ServerState :=
  { st0 with
    messages := [⟨1, "u", "p1", "c1", "c2", none, "never", false, 0⟩,
                 ⟨2, "p2", "u", "c3", "c4", none, "never", false, 1⟩],
    active_connections := [("p1", 7)] }

theorem C8_witness :
    (∀ c, stPresence.chanAlive c = true) ∧ 1 ≤ 1 ∧
    ((broadcast_status 1 stPresence "u" true).delivered =
      stPresence.delivered ++ (contactsOf stPresence "u").filterMap (fun c =>
        (lookupConn stPresence c).map (fun ch => (c, ch, Event.user_online "u"))) ∧
      (contactsOf stPresence "u").Nodup ∧
      (broadcast_status 1 stPresence "u" true).active_connections =
        stPresence.active_connections) :=
  ⟨fun _ => rfl, by decide,
    C8_presence_broadcast 1 stPresence "u" true (fun _ => rfl) (by decide)⟩

/-! ## Read receipts and the conversation query -/

/-- A mapped function that fixes every element of a list maps the list to
itself. -/
theorem map_id_of_eq {α : Type _} (f : α → α) :
    ∀ (l : List α), (∀ x ∈ l, f x = x) → l.map f = l
  | [], _ => rfl
  | x :: l, h => by
    rw [List.map_cons, h x (List.mem_cons_self x l),
      map_id_of_eq f l (fun y hy => h y (List.mem_cons_of_mem x hy))]

/-- Flipping a read flag twice is the same as flipping it once. -/
theorem flipRead_flipRead (s r : String) (m : Message) :
    flipRead s r (flipRead s r m) = flipRead s r m := by
  unfold flipRead
  by_cases h : (m.sender_id == s && m.recipient_id == r && m.is_read == false) = true
  · rw [if_pos h]
    simp
  · rw [if_neg h, if_neg h]

/-- C6: the read-receipt update is idempotent and total: running it twice
equals running it once, running it when no unread row from the sender to the
recipient exists leaves the state exactly unchanged (a no-op, never an
error), and after one run every stored row from the sender to the recipient
is read. -/
theorem C6_markRead_idempotent_total (st : ServerState) (s r : String) :
    markRead (markRead st s r) s r = markRead st s r ∧
    ((∀ m ∈ st.messages, ¬(m.sender_id = s ∧ m.recipient_id = r ∧ m.is_read = false)) →
      markRead st s r = st) ∧
    (∀ m ∈ (markRead st s r).messages, m.sender_id = s → m.recipient_id = r →
      m.is_read = true) := by
  refine ⟨?_, ?_, ?_⟩
  · have hcomp : flipRead s r ∘ flipRead s r = flipRead s r :=
      funext (flipRead_flipRead s r)
    simp only [markRead, List.map_map, hcomp]
  · intro hno
    have hfix : ∀ m ∈ st.messages, flipRead s r m = m := by
      intro m hm
      unfold flipRead
      rw [if_neg]
      intro hcond
      simp only [Bool.and_eq_true, beq_iff_eq] at hcond
      exact hno m hm ⟨hcond.1.1, hcond.1.2, hcond.2⟩
    unfold markRead
    rw [map_id_of_eq _ _ hfix]
  · intro m hm hs hr
    simp only [markRead, List.mem_map] at hm
    obtain ⟨m0, hm0, rfl⟩ := hm
    unfold flipRead at hs hr ⊢
    by_cases hc : (m0.sender_id == s && m0.recipient_id == r && m0.is_read == false) = true
    · rw [if_pos hc]
    · rw [if_neg hc] at hs hr ⊢
      simp only [Bool.and_eq_true, beq_iff_eq, not_and, Bool.not_eq_false] at hc
      exact hc ⟨hs, hr⟩

/-- A one-row state: one unread message from a to b. -/
def stRead : ServerState :=
  { st0 with messages := [⟨1, "a", "b", "x", "y", none, "never", false, 0⟩] }

theorem C6_witness :
    markRead (markRead stRead "a" "b") "a" "b" = markRead stRead "a" "b" ∧
    ((∀ m ∈ stRead.messages,
        ¬(m.sender_id = "a" ∧ m.recipient_id = "b" ∧ m.is_read = false)) →
      markRead stRead "a" "b" = stRead) ∧
    (∀ m ∈ (markRead stRead "a" "b").messages, m.sender_id = "a" → m.recipient_id = "b" →
      m.is_read = true) :=
  C6_markRead_idempotent_total stRead "a" "b"

/-- The LEFT JOIN enrichment never alters the message columns themselves. -/
theorem enrich_msg (st : ServerState) (m : Message) : (enrich st m).msg = m := by
  cases hm : m.reply_to_id with
  | none => simp [enrich, hm]
  | some rid =>
    cases hf : st.messages.find? (fun r => r.id == rid) with
    | none => simp [enrich, hm, hf]
    | some r => simp [enrich, hm, hf]

/-- The conversation filter does not care about the order of the two users. -/
theorem between_users_comm (a b : String) : between_users a b = between_users b a := by
  funext m
  unfold between_users
  exact Bool.or_comm _ _

/-- C7: the conversation query is symmetric in its two user arguments,
returns its rows sorted by creation time ascending, and its rows are exactly
the stored direct messages travelling between the two users in either
direction. -/
theorem C7_get_messages_symmetric_sorted (st : ServerState) (a b : String) :
    get_messages st a b = get_messages st b a ∧
    List.Sorted (fun e1 e2 : MessageView => e1.msg.created_at ≤ e2.msg.created_at)
      (get_messages st a b) ∧
    ((get_messages st a b).map (fun v => v.msg)).Perm
      (st.messages.filter (between_users a b)) := by
  refine ⟨?_, ?_, ?_⟩
  · unfold get_messages
    rw [between_users_comm]
  · unfold get_messages
    have hs := List.sorted_insertionSort msgLe (st.messages.filter (between_users a b))
    exact List.Pairwise.map _
      (fun m1 m2 h => by rw [enrich_msg, enrich_msg]; exact h) hs
  · unfold get_messages
    rw [List.map_map]
    have he : ((fun v : MessageView => v.msg) ∘ enrich st) = fun m : Message => m :=
      funext (fun m => enrich_msg st m)
    rw [he, map_id_of_eq (fun m : Message => m) _ (fun _ _ => rfl)]
    exact List.perm_insertionSort msgLe _

/-! ## Group endpoints -/

/-- A push never touches the `group_messages` table. -/
theorem send_to_user_group_messages (fuel : Nat) (st : ServerState) (user_id : String)
    (ev : Event) : (send_to_user fuel st user_id ev).group_messages = st.group_messages :=
  (send_to_user_tablesEq fuel st user_id ev).2.2.2.2.1

/-- A push never touches the `group_members` table. -/
theorem send_to_user_group_members (fuel : Nat) (st : ServerState) (user_id : String)
    (ev : Event) : (send_to_user fuel st user_id ev).group_members = st.group_members :=
  (send_to_user_tablesEq fuel st user_id ev).2.2.2.1

/-- When every message sender of a list is a registered user, the JOIN with
`users` keeps every row, and projecting the message columns back gives the
original list. -/
theorem map_msg_filterMap_users (st : ServerState) :
    ∀ L : List GroupMessage,
      (∀ gm ∈ L, (st.users.find? (fun u => u.user_id == gm.sender_id)).isSome) →
      ((L.filterMap (fun gm => (st.users.find? (fun u => u.user_id == gm.sender_id)).map
        (fun u => (⟨gm, u.display_name⟩ : GroupMessageView)))).map (fun v => v.msg)) = L
  | [], _ => rfl
  | gm :: L, h => by
    obtain ⟨u, hu⟩ := Option.isSome_iff_exists.mp (h gm (List.mem_cons_self gm L))
    simp only [List.filterMap_cons, hu, Option.map_some', List.map_cons]
    rw [map_msg_filterMap_users st L (fun x hx => h x (List.mem_cons_of_mem gm hx))]

/-- C9: neither posting to a group nor reading a group's messages checks
membership: for a caller with no membership row, `send_group_message` still
inserts the row and returns the fresh id, `get_group_messages` answers
independently of the caller (and, when every sender is registered, returns
exactly the group's messages), while `get_group` alone rejects the
non-member with `NotFound`. -/
theorem C9_group_ops_skip_membership_check (fuel : Nat) (st : ServerState)
    (group_id user_id : String) (message : GroupMessageCreate)
    (hgroup : ∃ g, g ∈ st.chat_groups ∧ g.group_id = group_id)
    (hnotmem : ∀ gm ∈ st.group_members, ¬(gm.group_id = group_id ∧ gm.user_id = user_id)) :
    (send_group_message fuel st group_id user_id message).1 = st.nextGroupMessageId ∧
    (send_group_message fuel st group_id user_id message).2.group_messages =
      st.group_messages ++ [⟨st.nextGroupMessageId, group_id, user_id,
        message.encrypted_content, st.time⟩] ∧
    (∀ v : String,
      get_group_messages st group_id user_id = get_group_messages st group_id v) ∧
    ((∀ m ∈ st.group_messages, ∃ u, u ∈ st.users ∧ u.user_id = m.sender_id) →
      ((get_group_messages st group_id user_id).map (fun v => v.msg)).Perm
        (st.group_messages.filter (fun gm => gm.group_id == group_id))) ∧
    get_group st group_id user_id = Except.error ApiError.NotFound := by
  refine ⟨rfl, ?_, fun v => rfl, ?_, ?_⟩
  · unfold send_group_message
    refine foldl_preserves _
      (fun s : ServerState => s.group_messages =
        st.group_messages ++ [⟨st.nextGroupMessageId, group_id, user_id,
          message.encrypted_content, st.time⟩])
      (fun b a hb => (send_to_user_group_messages fuel b a _).trans hb) _ _ ?_
    rfl
  · intro husers
    unfold get_group_messages
    refine (List.Perm.map (fun v : GroupMessageView => v.msg)
      (List.perm_insertionSort gmLe _)).trans ?_
    rw [map_msg_filterMap_users st _ ?_]
    · intro gm hgm
      obtain ⟨u, hu, hid⟩ := husers gm (List.mem_of_mem_filter hgm)
      rw [List.find?_isSome]
      exact ⟨u, hu, by simp [hid]⟩
  · have hfind : st.group_members.find?
        (fun gm => gm.group_id == group_id && gm.user_id == user_id) = none := by
      rw [List.find?_eq_none]
      intro gm hgm
      simp only [Bool.and_eq_true, beq_iff_eq, not_and]
      exact fun h1 h2 => hnotmem gm hgm ⟨h1, h2⟩
    unfold get_group
    rw [hfind]
    cases st.chat_groups.find? (fun g => g.group_id == group_id) <;> rfl

/-- A state with one group, no members, and no group messages. -/
def stGroup : ServerState := { st0 with chat_groups := [⟨"G", "grp", "creator", none⟩] }

theorem C9_witness :
    (∃ g, g ∈ stGroup.chat_groups ∧ g.group_id = "G") ∧
    (∀ gm ∈ stGroup.group_members, ¬(gm.group_id = "G" ∧ gm.user_id = "x")) ∧
    ((send_group_message 0 stGroup "G" "x" ⟨"gc"⟩).1 = stGroup.nextGroupMessageId ∧
      (send_group_message 0 stGroup "G" "x" ⟨"gc"⟩).2.group_messages =
        stGroup.group_messages ++ [⟨stGroup.nextGroupMessageId, "G", "x", "gc",
          stGroup.time⟩] ∧
      (∀ v : String,
        get_group_messages stGroup "G" "x" = get_group_messages stGroup "G" v) ∧
      ((∀ m ∈ stGroup.group_messages, ∃ u, u ∈ stGroup.users ∧ u.user_id = m.sender_id) →
        ((get_group_messages stGroup "G" "x").map (fun v => v.msg)).Perm
          (stGroup.group_messages.filter (fun gm => gm.group_id == "G"))) ∧
      get_group stGroup "G" "x" = Except.error ApiError.NotFound) :=
  ⟨⟨⟨"G", "grp", "creator", none⟩, List.mem_singleton.mpr rfl, rfl⟩,
    fun gm h => absurd h (List.not_mem_nil gm),
    C9_group_ops_skip_membership_check 0 stGroup "G" "x" ⟨"gc"⟩
      ⟨⟨"G", "grp", "creator", none⟩, List.mem_singleton.mpr rfl, rfl⟩
      (fun gm h => absurd h (List.not_mem_nil gm))⟩

/-- The per-member decision of `create_group`'s loop: a listed member yields
a membership row exactly when a key was supplied and the member is not the
creator. -/
def memberRowFn (group_id user_id : String) (keys : List (String × String)) (m : String) :
    Option GroupMember :=
  match keys.lookup m with
  | some k => if m != user_id then some ⟨group_id, m, k⟩ else none
  | none => none

/-- The member loop of `create_group` appends exactly the rows dictated by
`memberRowFn`, in list order, and touches nothing else in `group_members`. -/
theorem add_members_group_members (fuel : Nat) (group_id gname user_id : String)
    (keys : List (String × String)) :
    ∀ (l : List String) (st : ServerState),
      (add_members fuel group_id gname user_id keys l st).group_members =
        st.group_members ++ l.filterMap (memberRowFn group_id user_id keys)
  | [], st => by simp [add_members]
  | member_id :: l, st => by
    simp only [add_members]
    split
    next k hk =>
      by_cases hm : (member_id != user_id) = true
      · rw [if_pos hm]
        rw [add_members_group_members fuel group_id gname user_id keys l _]
        rw [send_to_user_group_members]
        have hf : memberRowFn group_id user_id keys member_id =
            some ⟨group_id, member_id, k⟩ := by
          simp [memberRowFn, hk, hm]
        simp [List.filterMap_cons, hf]
      · rw [if_neg hm]
        rw [add_members_group_members fuel group_id gname user_id keys l st]
        have hf : memberRowFn group_id user_id keys member_id = none := by
          simp only [memberRowFn, hk]
          rw [if_neg hm]
        simp [List.filterMap_cons, hf]
    next hk =>
      rw [add_members_group_members fuel group_id gname user_id keys l st]
      have hf : memberRowFn group_id user_id keys member_id = none := by
        simp [memberRowFn, hk]
      simp [List.filterMap_cons, hf]

/-- C5: the membership set of a freshly created group is exactly the ids of
`{creator} ∪ member_ids` that supplied a key — members without a key
(creator included) are silently skipped rather than failing the call — and
`get_groups` of a skipped member excludes the new group. -/
theorem C5_create_group_membership (fuel : Nat) (st : ServerState) (user_id : String)
    (group : GroupCreate)
    (hfresh : ∀ gm ∈ st.group_members, gm.group_id ≠ toString st.nextGroupNum) :
    (∀ u : String,
      (∃ gm, gm ∈ (create_group fuel st user_id group).2.group_members ∧
        gm.group_id = (create_group fuel st user_id group).1 ∧ gm.user_id = u) ↔
      ((u = user_id ∨ u ∈ group.member_ids) ∧ (group.encrypted_keys.lookup u).isSome)) ∧
    (∀ u : String, group.encrypted_keys.lookup u = none →
      ∀ g ∈ get_groups (create_group fuel st user_id group).2 u,
        g.group_id ≠ (create_group fuel st user_id group).1) := by
  have h1 : (create_group fuel st user_id group).1 = toString st.nextGroupNum := rfl
  have hmem : (create_group fuel st user_id group).2.group_members =
      (match group.encrypted_keys.lookup user_id with
       | some k => st.group_members ++ [⟨toString st.nextGroupNum, user_id, k⟩]
       | none => st.group_members) ++
      group.member_ids.filterMap
        (memberRowFn (toString st.nextGroupNum) user_id group.encrypted_keys) := by
    unfold create_group
    rw [add_members_group_members]
    cases hk : group.encrypted_keys.lookup user_id <;> simp [hk]
  have hchar : ∀ u : String,
      (∃ gm, gm ∈ (create_group fuel st user_id group).2.group_members ∧
        gm.group_id = (create_group fuel st user_id group).1 ∧ gm.user_id = u) ↔
      ((u = user_id ∨ u ∈ group.member_ids) ∧ (group.encrypted_keys.lookup u).isSome) := by
    intro u
    constructor
    · rintro ⟨gm, hgm, hgid, huid⟩
      rw [hmem] at hgm
      rw [h1] at hgid
      rcases List.mem_append.mp hgm with hA | hB
      · cases hk : group.encrypted_keys.lookup user_id with
        | none =>
          rw [hk] at hA
          exact absurd hgid (hfresh gm hA)
        | some k =>
          rw [hk] at hA
          rcases List.mem_append.mp hA with hold | hnew
          · exact absurd hgid (hfresh gm hold)
          · rw [List.mem_singleton] at hnew
            subst hnew
            have hu : u = user_id := huid.symm
            subst hu
            exact ⟨Or.inl rfl, by rw [hk]; rfl⟩
      · obtain ⟨m, hmim, hfm⟩ := List.mem_filterMap.mp hB
        cases hk : group.encrypted_keys.lookup m with
        | none =>
          rw [memberRowFn, hk] at hfm
          exact absurd hfm (by simp)
        | some k =>
          simp only [memberRowFn, hk] at hfm
          by_cases hmu : (m != user_id) = true
          · rw [if_pos hmu] at hfm
            have hrow := Option.some.inj hfm
            have hum : u = m := by rw [← huid, ← hrow]
            subst hum
            exact ⟨Or.inr hmim, by rw [hk]; rfl⟩
          · rw [if_neg hmu] at hfm
            exact absurd hfm (by simp)
    · rintro ⟨hu, hsome⟩
      obtain ⟨k, hk⟩ := Option.isSome_iff_exists.mp hsome
      by_cases hueq : u = user_id
      · subst hueq
        refine ⟨⟨toString st.nextGroupNum, u, k⟩, ?_, h1.symm ▸ rfl, rfl⟩
        rw [hmem, hk]
        exact List.mem_append_left _
          (List.mem_append_right _ (List.mem_singleton.mpr rfl))
      · have hmm : u ∈ group.member_ids := hu.resolve_left hueq
        refine ⟨⟨toString st.nextGroupNum, u, k⟩, ?_, h1.symm ▸ rfl, rfl⟩
        rw [hmem]
        refine List.mem_append_right _ ?_
        refine List.mem_filterMap.mpr ⟨u, hmm, ?_⟩
        simp only [memberRowFn, hk]
        rw [if_pos (by simp [hueq])]
  refine ⟨hchar, ?_⟩
  intro u hnone g hg heq
  unfold get_groups at hg
  obtain ⟨cg, hcg, rfl⟩ := List.mem_map.mp hg
  obtain ⟨hcgmem, hany⟩ := List.mem_filter.mp hcg
  obtain ⟨gm, hgm, hpred⟩ := List.any_eq_true.mp hany
  simp only [Bool.and_eq_true, beq_iff_eq] at hpred
  have hex : ∃ gm, gm ∈ (create_group fuel st user_id group).2.group_members ∧
      gm.group_id = (create_group fuel st user_id group).1 ∧ gm.user_id = u := by
    refine ⟨gm, hgm, ?_, hpred.2⟩
    rw [hpred.1]
    exact heq
  have hres := (hchar u).mp hex
  rw [hnone] at hres
  exact absurd hres.2 (by simp)

/-- A group-creation request: creator A, listed members B and C, keys
supplied only for A and B. -/
def gC : GroupCreate := ⟨"grp", ["B", "C"], [("A", "kA"), ("B", "kB")]⟩

theorem C5_witness :
    (∀ gm ∈ st0.group_members, gm.group_id ≠ toString st0.nextGroupNum) ∧
    ((∀ u : String,
        (∃ gm, gm ∈ (create_group 0 st0 "A" gC).2.group_members ∧
          gm.group_id = (create_group 0 st0 "A" gC).1 ∧ gm.user_id = u) ↔
        ((u = "A" ∨ u ∈ gC.member_ids) ∧ (gC.encrypted_keys.lookup u).isSome)) ∧
      (∀ u : String, gC.encrypted_keys.lookup u = none →
        ∀ g ∈ get_groups (create_group 0 st0 "A" gC).2 u,
          g.group_id ≠ (create_group 0 st0 "A" gC).1)) :=
  ⟨fun gm h => absurd h (List.not_mem_nil gm),
    C5_create_group_membership 0 st0 "A" gC (fun gm h => absurd h (List.not_mem_nil gm))⟩
